import Mathlib

/-!
Verification of the operational-transform core of a real-time collaborative
editor. The definitions below are a shallow embedding of the Python sources
`backend/app/ot.py`, `backend/app/manager.py` and `backend/app/sessions.py`:

* text is `List Char` (Python `str`, code-point units);
* Python `int` is `Int`, `float` timestamps are `ℚ`;
* Python `dict[str,int]` (vector clocks) is an association list with unique
  keys, updated in place exactly as the source mutates the dict;
* the cryptographic digests (`hashlib.sha256(...)[:k]`, `md5[:16]`) are
  external library calls; they are modelled as the identity on the exact
  string the source feeds to the hash, which preserves the only property the
  program uses (equal inputs give equal digests, and the program treats the
  digest as injective);
* a Python function that can raise (`ValueError` on integrity or validation
  failure) returns `Option`, `none` being the raised exception;
* `time.time()` is modelled by the constant `currentTime` where the source
  uses it only as an inert default (operation creation); where timing is the
  point (rate limiting) the call times are explicit parameters.
-/

/-! ## OperationType (ot.py lines 16–20)

The enum values are the strings "retain" / "insert" / "delete"; the source
comments call them "Priority 0/1/2". -/

inductive OperationType
  | retain
  | insert
  | delete
deriving DecidableEq, Repr

/-- `OperationType.value` in Python: the string payload of the enum member. -/
def typeValue : OperationType → String
  | OperationType.retain => "retain"
  | OperationType.insert => "insert"
  | OperationType.delete => "delete"

/-! ## VectorClock (ot.py lines 23–64) -/

structure VectorClock where
  clocks : List (String × Int)
deriving DecidableEq, Repr

/-- `self.clocks.get(client_id, 0)`. -/
def VectorClock.getClock (vc : VectorClock) (c : String) : Int :=
  (vc.clocks.lookup c).getD 0

/-- `self.clocks[client_id] = v` on a Python dict: update in place if the key
exists, else append (dicts preserve insertion order). -/
def setClock (l : List (String × Int)) (c : String) (v : Int) : List (String × Int) :=
  if l.any (fun p => p.1 == c) then
    l.map (fun p => if p.1 == c then (c, v) else p)
  else
    l ++ [(c, v)]

/-- `VectorClock.increment` (ot.py lines 28–30). -/
def VectorClock.increment (vc : VectorClock) (c : String) : VectorClock :=
  ⟨setClock vc.clocks c (vc.getClock c + 1)⟩

/-- `VectorClock.update` (ot.py lines 32–35): pairwise max, iterating the
other clock's entries. -/
def VectorClock.update (self other : VectorClock) : VectorClock :=
  ⟨other.clocks.foldl
    (fun acc p => setClock acc p.1 (max ((acc.lookup p.1).getD 0) p.2)) self.clocks⟩

/-- `VectorClock.compare` (ot.py lines 37–60). The flags keep the source's
(confusing) names: `self_less` is set when some component of `self` is
strictly GREATER, `other_less` when some component of `self` is strictly
smaller. The iteration over the key set is modelled by `List.any` over the
concatenated key lists, which agrees with iteration over the union set. -/
def VectorClock.compare (self other : VectorClock) : String :=
  let allClients := self.clocks.map Prod.fst ++ other.clocks.map Prod.fst
  let selfLess := allClients.any (fun c => decide (self.getClock c > other.getClock c))
  let otherLess := allClients.any (fun c => decide (self.getClock c < other.getClock c))
  if selfLess && otherLess then "concurrent"
  else if selfLess && !otherLess then "before"
  else if otherLess && !selfLess then "after"
  else "equal"

/-- `VectorClock.copy` (ot.py lines 62–64); pure values need no deep copy. -/
def VectorClock.copy (vc : VectorClock) : VectorClock := vc

/-! ## Operation (ot.py lines 67–137) -/

structure Operation where
  type : OperationType
  position : Int
  text : List Char
  length : Int
  client_id : String
  operation_id : String
  vector_clock : VectorClock
  timestamp : ℚ
  checksum : String
deriving DecidableEq, Repr

/-- `time.time()` used as the inert default timestamp of created operations. -/
def currentTime : ℚ := 0

/-- `Operation._generate_operation_id` (ot.py lines 94–97): the f-string fed
to `md5(...)[:16]`, the digest being modelled as the identity. -/
def genOperationId (client_id : String) (timestamp : ℚ) (t : OperationType)
    (position : Int) : String :=
  client_id ++ "_" ++ toString timestamp ++ "_" ++ typeValue t ++ "_" ++ toString position

/-- `Operation._generate_checksum` (ot.py lines 99–102): the f-string over
`(type, position, text, length)` fed to `sha256(...)[:32]`, the digest being
modelled as the identity. -/
def opChecksum (t : OperationType) (position : Int) (text : List Char)
    (length : Int) : String :=
  typeValue t ++ "_" ++ toString position ++ "_" ++ String.mk text ++ "_" ++ toString length

/-- The field-filling part of `Operation.__post_init__` (ot.py lines 86–92):
`operation_id` and `checksum` are generated exactly when the given value is
the empty string. -/
def fillOperation (t : OperationType) (position : Int) (text : List Char)
    (length : Int) (client_id operation_id : String) (vector_clock : VectorClock)
    (timestamp : ℚ) (checksum : String) : Operation :=
  { type := t
    position := position
    text := text
    length := length
    client_id := client_id
    operation_id :=
      if operation_id = "" then genOperationId client_id timestamp t position
      else operation_id
    vector_clock := vector_clock
    timestamp := timestamp
    checksum :=
      if checksum = "" then opChecksum t position text length else checksum }

/-- `Operation(...)` construction: `__post_init__` (ot.py lines 80–92) raises
`ValueError` for an Insert with empty text or a Delete with non-positive
length, then fills `operation_id` / `checksum`. -/
def mkOperation (t : OperationType) (position : Int) (text : List Char)
    (length : Int) (client_id operation_id : String) (vector_clock : VectorClock)
    (timestamp : ℚ) (checksum : String) : Option Operation :=
  if t = OperationType.insert ∧ text = [] then none
  else if t = OperationType.delete ∧ length ≤ 0 then none
  else some (fillOperation t position text length client_id operation_id
    vector_clock timestamp checksum)

/-- `Operation.verify_integrity` (ot.py lines 104–107). -/
def verifyIntegrity (op : Operation) : Bool :=
  op.checksum == opChecksum op.type op.position op.text op.length

/-! ## AdvancedTextOT.apply_operation (ot.py lines 146–165) -/

/-- Apply a single operation with bounds clamping; `none` is the raised
`ValueError` when the checksum does not verify. -/
def applyOperation (text : List Char) (op : Operation) : Option (List Char) :=
  if verifyIntegrity op = false then none
  else
    let textLen : Int := text.length
    match op.type with
    | OperationType.insert =>
      let pos := max 0 (min op.position textLen)
      some (text.take pos.toNat ++ op.text ++ text.drop pos.toNat)
    | OperationType.delete =>
      let startPos := max 0 (min op.position textLen)
      let endPos := max startPos (min (op.position + op.length) textLen)
      some (text.take startPos.toNat ++ text.drop endPos.toNat)
    | OperationType.retain => some text

/-! ## AdvancedTextOT.apply_operations (ot.py lines 167–198)

Sorts by the key `(op.timestamp, op.type.value)` — note that `type.value` is
the enum's STRING — then applies with a running position offset.  Python's
stable `sorted` is modelled by a stable insertion sort on the same key. -/

/-- Python string `<` (lexicographic on code points). -/
def strLexLT : List Char → List Char → Bool
  | [], [] => false
  | [], _ :: _ => true
  | _ :: _, [] => false
  | a :: as, b :: bs =>
    if a.val < b.val then true
    else if b.val < a.val then false
    else strLexLT as bs

/-- Strict comparison of the sort keys `(timestamp, type.value)`. -/
def opKeyLT (a b : Operation) : Bool :=
  decide (a.timestamp < b.timestamp) ||
    (decide (a.timestamp = b.timestamp) &&
      strLexLT (typeValue a.type).toList (typeValue b.type).toList)

/-- Stable insertion: place `x` before the first element strictly greater
than it, keeping the relative order of equal keys. -/
def insertByKey (x : Operation) : List Operation → List Operation
  | [] => [x]
  | y :: ys => if opKeyLT y x then y :: insertByKey x ys else x :: y :: ys

/-- `sorted(operations, key=lambda op: (op.timestamp, op.type.value))`. -/
def sortOps (ops : List Operation) : List Operation :=
  ops.foldr insertByKey []

/-- The loop body of `apply_operations`: rebuild the operation at the
offset-adjusted position through the `Operation` constructor (which re-runs
validation and keeps the explicitly passed, stale `checksum`), apply it, and
update the offset. -/
def applyOpsLoop : List Char → Int → List Operation → Option (List Char)
  | result, _, [] => some result
  | result, offset, op :: rest =>
    match mkOperation op.type (op.position + offset) op.text op.length
        op.client_id op.operation_id op.vector_clock op.timestamp op.checksum with
    | none => none
    | some adjusted =>
      match applyOperation result adjusted with
      | none => none
      | some r =>
        applyOpsLoop r
          (offset + (if op.type = OperationType.insert then (op.text.length : Int) else 0)
            - (if op.type = OperationType.delete then op.length else 0)) rest

/-- `AdvancedTextOT.apply_operations` (ot.py lines 167–198). -/
def applyOperations (text : List Char) (operations : List Operation) : Option (List Char) :=
  applyOpsLoop text 0 (sortOps operations)

/-! ## Pairwise transformation (ot.py lines 239–492)

The helper constructors below rebuild operations through the dataclass
constructor; every such call site passes a validated field combination (an
Insert keeps its non-empty text, a Delete is built only with positive
length, a Retain is unvalidated), so the re-validation in `__post_init__`
cannot fire and is modelled by `fillOperation`. The omitted dataclass
arguments take their defaults: `text=""`, `length=0`, `checksum=""` — in
particular the checksum of every transform-constructed operation is
regenerated. -/

/-- `AdvancedTextOT._operations_conflict` (ot.py lines 262–276): a Retain
never conflicts; otherwise an operation's range runs from `position` to
`position + length` for a Delete and is empty (`position` to `position`)
for an Insert, and the test is `not (op1_end <= op2_start or op2_end <=
op1_start)`. -/
def operationsConflict (op1 op2 : Operation) : Bool :=
  if op1.type = OperationType.retain ∨ op2.type = OperationType.retain then false
  else
    let op1End := op1.position + (if op1.type = OperationType.delete then op1.length else 0)
    let op2End := op2.position + (if op2.type = OperationType.delete then op2.length else 0)
    if op1End ≤ op2.position ∨ op2End ≤ op1.position then false else true

/-- `AdvancedTextOT._determine_priority` (ot.py lines 278–295). -/
def determinePriority (op1 op2 : Operation) : String :=
  let clockComparison := op1.vector_clock.compare op2.vector_clock
  if clockComparison = "before" then "op1"
  else if clockComparison = "after" then "op2"
  else if op1.client_id < op2.client_id then "op1"
  else if op2.client_id < op1.client_id then "op2"
  else if op1.timestamp < op2.timestamp then "op1" else "op2"

/-- `AdvancedTextOT._transform_insert_insert` (ot.py lines 297–347). -/
def transformInsertInsert (op1 op2 : Operation) (priority : String) :
    Operation × Operation :=
  if op1.position < op2.position then
    (op1,
      fillOperation op2.type (op2.position + op1.text.length) op2.text 0
        op2.client_id op2.operation_id op2.vector_clock.copy op2.timestamp "")
  else if op1.position > op2.position then
    (fillOperation op1.type (op1.position + op2.text.length) op1.text 0
        op1.client_id op1.operation_id op1.vector_clock.copy op1.timestamp "",
      op2)
  else if priority = "op1" then
    (op1,
      fillOperation op2.type (op2.position + op1.text.length) op2.text 0
        op2.client_id op2.operation_id op2.vector_clock.copy op2.timestamp "")
  else
    (fillOperation op1.type (op1.position + op2.text.length) op1.text 0
        op1.client_id op1.operation_id op1.vector_clock.copy op1.timestamp "",
      op2)

/-- `AdvancedTextOT._transform_insert_delete` (ot.py lines 349–401). -/
def transformInsertDelete (opInsert opDelete : Operation) : Operation × Operation :=
  let deleteStart := opDelete.position
  let deleteEnd := opDelete.position + opDelete.length
  if opInsert.position ≤ deleteStart then
    (opInsert,
      fillOperation opDelete.type (opDelete.position + opInsert.text.length) []
        opDelete.length opDelete.client_id opDelete.operation_id
        opDelete.vector_clock.copy opDelete.timestamp "")
  else if opInsert.position ≥ deleteEnd then
    (fillOperation opInsert.type (opInsert.position - opDelete.length)
        opInsert.text 0 opInsert.client_id opInsert.operation_id
        opInsert.vector_clock.copy opInsert.timestamp "",
      opDelete)
  else
    (fillOperation opInsert.type deleteStart opInsert.text 0
        opInsert.client_id opInsert.operation_id
        opInsert.vector_clock.copy opInsert.timestamp "",
      fillOperation opDelete.type (opDelete.position + opInsert.text.length) []
        opDelete.length opDelete.client_id opDelete.operation_id
        opDelete.vector_clock.copy opDelete.timestamp "")

/-- `AdvancedTextOT._transform_delete_delete` (ot.py lines 403–492). -/
def transformDeleteDelete (op1 op2 : Operation) : Operation × Operation :=
  let op1Start := op1.position
  let op1End := op1.position + op1.length
  let op2Start := op2.position
  let op2End := op2.position + op2.length
  let overlapLength := max 0 (min op1End op2End - max op1Start op2Start)
  let op1Prime :=
    if op2End ≤ op1Start then
      fillOperation op1.type (op1.position - op2.length) [] op1.length
        op1.client_id op1.operation_id op1.vector_clock.copy op1.timestamp ""
    else if op2Start ≥ op1End then op1
    else if op1.length - overlapLength ≤ 0 then
      fillOperation OperationType.retain (min op1Start op2Start) [] 0
        op1.client_id op1.operation_id op1.vector_clock.copy op1.timestamp ""
    else
      fillOperation op1.type (min op1Start op2Start) [] (op1.length - overlapLength)
        op1.client_id op1.operation_id op1.vector_clock.copy op1.timestamp ""
  let op2Prime :=
    if op1End ≤ op2Start then
      fillOperation op2.type (op2.position - op1.length) [] op2.length
        op2.client_id op2.operation_id op2.vector_clock.copy op2.timestamp ""
    else if op1Start ≥ op2End then op2
    else if op2.length - overlapLength ≤ 0 then
      fillOperation OperationType.retain (min op1Start op2Start) [] 0
        op2.client_id op2.operation_id op2.vector_clock.copy op2.timestamp ""
    else
      fillOperation op2.type (min op1Start op2Start) [] (op2.length - overlapLength)
        op2.client_id op2.operation_id op2.vector_clock.copy op2.timestamp ""
  (op1Prime, op2Prime)

/-- `AdvancedTextOT._transform_operation_pair` (ot.py lines 239–260). -/
def transformOperationPair (op1 op2 : Operation) : Operation × Operation :=
  if op1.client_id = op2.client_id ∨ operationsConflict op1 op2 = false then
    (op1, op2)
  else
    let priority := determinePriority op1 op2
    if op1.type = OperationType.insert ∧ op2.type = OperationType.insert then
      transformInsertInsert op1 op2 priority
    else if op1.type = OperationType.insert ∧ op2.type = OperationType.delete then
      transformInsertDelete op1 op2
    else if op1.type = OperationType.delete ∧ op2.type = OperationType.insert then
      let p := transformInsertDelete op2 op1
      (p.2, p.1)
    else if op1.type = OperationType.delete ∧ op2.type = OperationType.delete then
      transformDeleteDelete op1 op2
    else (op1, op2)

/-- `AdvancedTextOT.transform_operations` (ot.py lines 213–237): fold each
operation of one batch through all operations of the other. -/
def transformOperations (ops1 ops2 : List Operation) :
    List Operation × List Operation :=
  if ops1 = [] ∨ ops2 = [] then (ops1, ops2)
  else
    (ops1.map (fun op1 => ops2.foldl (fun cur op2 => (transformOperationPair cur op2).1) op1),
     ops2.map (fun op2 => ops1.foldl (fun cur op1 => (transformOperationPair op1 cur).2) op2))

/-! ## OperationBuffer (ot.py lines 495–604)

The buffer state keeps the fields the operation path reads and writes:
`content`, `client_id`, `operation_history`, `pending_operations` and
`vector_clock`.  The derived `state_hash` and the wall-clock performance
counters (`operations_processed`, `last_operation_time`,
`average_processing_time`) are write-only metrics recomputed from the fields
above and real time; no operation on the buffer reads them back, so they are
omitted from the state. -/

structure OperationBuffer where
  content : List Char
  client_id : String
  operation_history : List Operation
  pending_operations : List Operation
  vector_clock : VectorClock
deriving DecidableEq, Repr

/-- `OperationBuffer.__init__` (ot.py lines 501–512). -/
def OperationBuffer.init (initial_content : List Char) (client_id : String) :
    OperationBuffer :=
  { content := initial_content
    client_id := client_id
    operation_history := []
    pending_operations := []
    vector_clock := ⟨[]⟩ }

/-- `OperationBuffer.apply_local_operation` (ot.py lines 520–537): stamp the
buffer's client id, increment the buffer clock, stamp the operation's clock,
apply, append to history. `none` is the `ValueError` that
`apply_operation` raises on a checksum mismatch. -/
def applyLocalOperation (b : OperationBuffer) (operation : Operation) :
    Option OperationBuffer :=
  let vc := b.vector_clock.increment b.client_id
  let stamped := { operation with client_id := b.client_id, vector_clock := vc.copy }
  match applyOperation b.content stamped with
  | none => none
  | some c =>
    some { b with
      content := c
      operation_history := b.operation_history ++ [stamped]
      vector_clock := vc }

/-- `OperationBuffer.apply_remote_operation` (ot.py lines 539–565): verify,
merge clocks, transform against the pending queue when it is non-empty,
apply, append to history. -/
def applyRemoteOperation (b : OperationBuffer) (operation : Operation) :
    Option OperationBuffer :=
  if verifyIntegrity operation = false then none
  else
    let vc := b.vector_clock.update operation.vector_clock
    let tp :=
      if b.pending_operations ≠ [] then
        let r := transformOperations [operation] b.pending_operations
        (r.1.headD operation, r.2)
      else (operation, b.pending_operations)
    match applyOperation b.content tp.1 with
    | none => none
    | some c =>
      some { b with
        content := c
        operation_history := b.operation_history ++ [tp.1]
        pending_operations := tp.2
        vector_clock := vc }

/-- The buffer states reachable in this codebase: a fresh buffer followed by
any succession of successful local and remote applications (a raising call
mutates none of the fields modelled here except, for `apply_local_operation`,
the clock — and in particular never touches `pending_operations`). -/
inductive ReachableBuffer : OperationBuffer → Prop
  | init (c : List Char) (cid : String) : ReachableBuffer (OperationBuffer.init c cid)
  | localStep (b : OperationBuffer) (op : Operation) (b' : OperationBuffer) :
      ReachableBuffer b → applyLocalOperation b op = some b' → ReachableBuffer b'
  | remoteStep (b : OperationBuffer) (op : Operation) (b' : OperationBuffer) :
      ReachableBuffer b → applyRemoteOperation b op = some b' → ReachableBuffer b'

/-! ## Operation creation and diff parsing (ot.py lines 607–672) -/

/-- `create_insert_operation` (ot.py lines 608–615). -/
def createInsertOperation (position : Int) (text : List Char)
    (client_id : String) : Option Operation :=
  mkOperation OperationType.insert position text 0 client_id "" ⟨[]⟩ currentTime ""

/-- `create_delete_operation` (ot.py lines 618–625). -/
def createDeleteOperation (position length : Int) (client_id : String) :
    Option Operation :=
  mkOperation OperationType.delete position [] length client_id "" ⟨[]⟩ currentTime ""

/-- The common-prefix while loop of `parse_edit_to_operations` (ot.py lines
642–645). -/
def commonPrefixLen : List Char → List Char → Nat
  | a :: as, b :: bs => if a = b then commonPrefixLen as bs + 1 else 0
  | _, _ => 0

/-- The common-suffix while loop (ot.py lines 648–654), run on the reversed
texts with the budget `min_len - prefix_len` that prevents the suffix from
overlapping the prefix. -/
def suffixScan : List Char → List Char → Nat → Nat
  | a :: as, b :: bs, budget + 1 => if a = b then suffixScan as bs budget + 1 else 0
  | _, _, _ => 0

/-- `parse_edit_to_operations` (ot.py lines 628–672).  The `Option` threads
the (unreachable on these inputs) constructor validation of the created
operations. -/
def parseEditToOperations (old_text new_text : List Char) (client_id : String) :
    Option (List Operation) :=
  if old_text = new_text then some []
  else
    let min_len := min old_text.length new_text.length
    let prefix_len := commonPrefixLen old_text new_text
    let suffix_len := suffixScan old_text.reverse new_text.reverse (min_len - prefix_len)
    let old_middle := (old_text.take (old_text.length - suffix_len)).drop prefix_len
    let new_middle := (new_text.take (new_text.length - suffix_len)).drop prefix_len
    if old_middle ≠ [] ∧ new_middle ≠ [] then
      (createDeleteOperation prefix_len old_middle.length client_id).bind fun d =>
        (createInsertOperation prefix_len new_middle client_id).map fun i => [d, i]
    else if old_middle ≠ [] then
      (createDeleteOperation prefix_len old_middle.length client_id).map fun d => [d]
    else if new_middle ≠ [] then
      (createInsertOperation prefix_len new_middle client_id).map fun i => [i]
    else some []

/-- Applying a list of operations one after another through
`AdvancedTextOT.apply_operation` ("applying the returned operations in
order"). -/
def applyOpsSeq (text : List Char) : List Operation → Option (List Char)
  | [] => some text
  | op :: rest => (applyOperation text op).bind fun t => applyOpsSeq t rest

/-! ## Rate limiting (manager.py lines 179, 348–401, 495–510)

`self.rate_limits` is a per-user deque of request timestamps (oldest first).
The deque's `maxlen=100` never binds: a timestamp is appended only when the
pruned deque holds at most 99 entries, so the length never exceeds 100 and
nothing is ever evicted by `maxlen`.  Call times are explicit parameters
standing for the successive values of `time.time()`. -/

/-- The pruning while loop of `_check_rate_limit` (manager.py lines 501–502):
pop from the left while the oldest timestamp is older than the window. -/
def pruneOldRequests (cutoff : ℚ) : List ℚ → List ℚ
  | [] => []
  | t :: ts => if t < cutoff then pruneOldRequests cutoff ts else t :: ts

/-- `AdvancedConnectionManager._check_rate_limit` (manager.py lines 495–510)
for one user: prune, reject if at the limit, otherwise record the request.
Returns the decision and the updated request deque. -/
def checkRateLimit (maxRequests : Nat) (windowSeconds : ℚ) (now : ℚ)
    (requests : List ℚ) : Bool × List ℚ :=
  let pruned := pruneOldRequests (now - windowSeconds) requests
  if maxRequests ≤ pruned.length then (false, pruned)
  else (true, pruned ++ [now])

/-- What one `handle_message` call (manager.py lines 348–401) does with the
rate-limit decision, projected to the observable effects the rate limiter
controls: a failed check sends exactly one `error` reply, records exactly one
`rate_limit_exceeded` error and returns — the message is not dispatched and
the channel is not disconnected; a passing check dispatches the message. -/
structure HandleOutcome where
  processed : Bool
  errorReplies : Nat
  rateLimitErrors : Nat
  disconnected : Bool
deriving DecidableEq, Repr

/-- One `handle_message` call at time `now` against the caller's request
deque, using the source defaults `max_requests=100`, `window_seconds=60`. -/
def handleMessageRateGate (now : ℚ) (requests : List ℚ) :
    List ℚ × HandleOutcome :=
  let r := checkRateLimit 100 60 now requests
  if r.1 then (r.2, ⟨true, 0, 0, false⟩)
  else (r.2, ⟨false, 1, 1, false⟩)

/-- A user's succession of `handle_message` calls at the given times,
starting from an empty request deque state and collecting each call's
time and outcome. -/
def runHandleTrace : List ℚ → List ℚ → List (ℚ × HandleOutcome)
  | _, [] => []
  | requests, t :: ts =>
    let r := handleMessageRateGate t requests
    (t, r.2) :: runHandleTrace r.1 ts

/-- Number of calls in the trace that passed the rate-limit check and were
processed, counting only calls inside the sliding window `(T - 60, T]`. -/
def processedCountInWindow (T : ℚ) (trace : List (ℚ × HandleOutcome)) : Nat :=
  (trace.filter (fun p => p.2.processed && decide (T - 60 < p.1 ∧ p.1 ≤ T))).length

/-- Number of recorded request timestamps inside the window `(T - 60, T]`. -/
def windowCount (T : ℚ) (requests : List ℚ) : Nat :=
  (requests.filter (fun x => decide (T - 60 < x ∧ x ≤ T))).length

/-! ## SessionState (sessions.py lines 23–77, 227–263)

The typed image of the dictionary stored in the session store; `metadata` is
irrelevant to every operation modelled here and is omitted, datetimes are
carried as rational epoch timestamps. -/

structure SessionDict where
  session_id : String
  content : List Char
  users : List String
  created_at : ℚ
  last_activity : ℚ
  version : Int
  operation_count : Int
  content_checksum : String
deriving DecidableEq, Repr

structure SessionState where
  session_id : String
  content : List Char
  users : List String
  created_at : ℚ
  last_activity : ℚ
  version : Int
  operation_count : Int
  content_checksum : String
deriving DecidableEq, Repr

/-- `hashlib.sha256(content).hexdigest()[:16]` over the session content,
modelled as the identity on the content. -/
def contentHash (content : List Char) : String := String.mk content

/-- `SessionState(...)` construction: `__post_init__` (sessions.py lines
36–42) unconditionally recomputes `content_checksum` from `content`,
discarding whatever value was passed for it. -/
def mkSessionState (session_id : String) (content : List Char)
    (users : List String) (created_at last_activity : ℚ)
    (version operation_count : Int) (content_checksum : String) : SessionState :=
  { session_id := session_id
    content := content
    users := users
    created_at := created_at
    last_activity := last_activity
    version := version
    operation_count := operation_count
    content_checksum := contentHash content }

/-- `SessionState.from_dict` (sessions.py lines 58–71): rebuild through the
constructor, passing the stored checksum (which `__post_init__` then
overwrites). -/
def SessionState.fromDict (d : SessionDict) : SessionState :=
  mkSessionState d.session_id d.content d.users d.created_at d.last_activity
    d.version d.operation_count d.content_checksum

/-- `SessionState.verify_integrity` (sessions.py lines 73–77). -/
def verifySessionIntegrity (s : SessionState) : Bool :=
  s.content_checksum == contentHash s.content

/-- The parse-and-verify step of `DistributedSessionManager.get_session`
(sessions.py lines 244–250): build the state from the stored dictionary and
return `none` (the integrity-failure branch) when `verify_integrity` fails. -/
def getSessionParse (d : SessionDict) : Option SessionState :=
  let s := SessionState.fromDict d
  if verifySessionIntegrity s = false then none else some s

/-! ## Claim-side formalizations

These definitions follow the wording of the specification (not the source);
they exist to state claims about the source definitions above. -/

/-- The affected range of an operation as the specification defines it: an
Insert occupies the empty range at its position, a Delete occupies
`[position, position + length)`. -/
def affectedRangeClaim (op : Operation) : Int × Int :=
  (op.position, op.position + (if op.type = OperationType.delete then op.length else 0))

/-- Disjointness of the claim's affected ranges: the half-open intervals
have no common point. An empty range is disjoint from everything. -/
def claimRangesDisjoint (a b : Operation) : Bool :=
  decide (min (affectedRangeClaim a).2 (affectedRangeClaim b).2 ≤
    max (affectedRangeClaim a).1 (affectedRangeClaim b).1)

/-- The claim's shape for diff-generated operations: at most one Delete
followed by at most one Insert, each positioned at the common-prefix
boundary `p`. -/
def claimShape (p : Int) : List Operation → Bool
  | [] => true
  | [a] => (a.type == OperationType.delete || a.type == OperationType.insert)
      && a.position == p
  | [a, b] => a.type == OperationType.delete && a.position == p
      && b.type == OperationType.insert && b.position == p
  | _ => false

/-! ## Concrete operations used by the claim instances -/

def c1OpA : Operation := fillOperation OperationType.insert 0 ['A'] 0 "a" "" ⟨[("a", 1)]⟩ 0 ""
def c1OpB : Operation := fillOperation OperationType.insert 0 ['B'] 0 "b" "" ⟨[("b", 1)]⟩ 0 ""

def c3OpA : Operation := fillOperation OperationType.insert 0 ['X'] 0 "a" "" ⟨[("a", 1)]⟩ 0 ""
def c3OpB : Operation := fillOperation OperationType.insert 3 ['Y'] 0 "b" "" ⟨[("b", 1)]⟩ 0 ""

def c4OpInsert : Operation := fillOperation OperationType.insert 2 ['X', 'X'] 0 "u" "" ⟨[]⟩ 1 ""
def c4OpDelete : Operation := fillOperation OperationType.delete 1 [] 2 "u" "" ⟨[]⟩ 1 ""

def c5OpInsert : Operation := fillOperation OperationType.insert 2 ['x'] 0 "a" "" ⟨[("a", 1)]⟩ 0 ""
def c5OpDelete : Operation := fillOperation OperationType.delete 1 [] 3 "b" "" ⟨[("b", 1)]⟩ 0 ""

/-! # Theorems settling the claims -/

/-- Claim C1 (transform convergence TP1) fails on the code: the two inserts
below are from distinct clients with concurrent vector clocks, both are
applicable to the empty text, yet `_transform_operation_pair` returns them
unchanged (an Insert's affected range is empty, so `_operations_conflict`
is false for every Insert/Insert pair), and the two application orders
produce "BA" versus "AB". -/
theorem c1_tp1_violation :
    VectorClock.compare ⟨[("a", 1)]⟩ ⟨[("b", 1)]⟩ = "concurrent" ∧
    c1OpA.client_id ≠ c1OpB.client_id ∧
    transformOperationPair c1OpA c1OpB = (c1OpA, c1OpB) ∧
    (applyOperation [] c1OpA).bind
      (fun t => applyOperation t (transformOperationPair c1OpA c1OpB).2) = some ['B', 'A'] ∧
    (applyOperation [] c1OpB).bind
      (fun t => applyOperation t (transformOperationPair c1OpA c1OpB).1) = some ['A', 'B'] ∧
    (['B', 'A'] : List Char) ≠ ['A', 'B'] := by
  refine ⟨by decide, by decide, by decide, by decide, by decide, by decide⟩

/-- Claim C2 (vector-clock comparison follows the standard partial order)
fails on the code: the comparison labels are inverted. Incrementing the
empty clock at "c" produces the strictly greater clock {c: 1}, and comparing
it against the old clock returns "before" (the claim requires "after");
symmetrically the dominated clock compares as "after". -/
theorem c2_compare_inverted :
    VectorClock.increment ⟨[]⟩ "c" = ⟨[("c", 1)]⟩ ∧
    VectorClock.compare (VectorClock.increment ⟨[]⟩ "c") ⟨[]⟩ = "before" ∧
    VectorClock.compare ⟨[]⟩ (VectorClock.increment ⟨[]⟩ "c") = "after" ∧
    ("before" : String) ≠ "after" := by
  refine ⟨by decide, by decide, by decide, by decide⟩

/-- Claim C3 (Insert/Insert transformation shifts the later insert) fails on
the code: for two concurrent inserts from distinct clients at positions 0
and 3, `_transform_operation_pair` returns both unchanged (Insert/Insert
pairs never satisfy `_operations_conflict`), the later insert is not
shifted to 4, and the two replicas diverge ("XABYC" versus "XABCY")
instead of agreeing as the claim requires. -/
theorem c3_insert_insert_not_transformed :
    VectorClock.compare ⟨[("a", 1)]⟩ ⟨[("b", 1)]⟩ = "concurrent" ∧
    c3OpA.position ≠ c3OpB.position ∧
    transformOperationPair c3OpA c3OpB = (c3OpA, c3OpB) ∧
    (transformOperationPair c3OpA c3OpB).2.position = 3 ∧
    (applyOperation "ABC".toList c3OpA).bind
      (fun t => applyOperation t (transformOperationPair c3OpA c3OpB).2) =
      some "XABYC".toList ∧
    (applyOperation "ABC".toList c3OpB).bind
      (fun t => applyOperation t (transformOperationPair c3OpA c3OpB).1) =
      some "XABCY".toList ∧
    "XABYC".toList ≠ "XABCY".toList := by
  refine ⟨by decide, by decide, by decide, by decide, by decide, by decide, by decide⟩

/-- Claim C4 (batch application order Retain < Insert < Delete) fails on the
code: the sort key uses the enum's string value, so "delete" sorts before
"insert" and the Delete below is applied first, contrary to the claimed
priority; moreover the offset-adjusted copy of the Insert keeps its stale
checksum, so `apply_operations` raises an integrity `ValueError` (modelled
as `none`) instead of completing. -/
theorem c4_apply_operations_order_and_crash :
    c4OpInsert.timestamp = c4OpDelete.timestamp ∧
    sortOps [c4OpInsert, c4OpDelete] = [c4OpDelete, c4OpInsert] ∧
    applyOperations "abcd".toList [c4OpInsert, c4OpDelete] = none := by
  refine ⟨by decide, by decide, by decide⟩

/-- Claim C5 counterexample: the insert at position 2 has the empty affected
range [2, 2), which is disjoint from the delete's range [1, 4) under the
claim's range definition, and the clients differ — yet
`_transform_operation_pair` does not return the pair unchanged (the insert
is relocated to position 1 and the delete is shifted to position 2). -/
theorem c5_claim_counterexample :
    c5OpInsert.client_id ≠ c5OpDelete.client_id ∧
    claimRangesDisjoint c5OpInsert c5OpDelete = true ∧
    transformOperationPair c5OpInsert c5OpDelete ≠ (c5OpInsert, c5OpDelete) := by
  refine ⟨by decide, by decide, by decide⟩

/-- Claim C5 (amended): for every pair of operations, if they share a
`client_id` or `_operations_conflict` is false — i.e. either is a Retain,
or `end₁ ≤ start₂` or `end₂ ≤ start₁` where an operation's end is
`position + length` for a Delete and `position` for an Insert (so that an
Insert strictly inside a Delete's open range DOES count as conflicting) —
then `_transform_operation_pair` returns the pair unchanged. -/
theorem c5_no_conflict_unchanged (a b : Operation)
    (h : a.client_id = b.client_id ∨ operationsConflict a b = false) :
    transformOperationPair a b = (a, b) := by
  unfold transformOperationPair
  simp [h]

/-- Claim C5 (amended) at a concrete input: two operations from the same
client are returned unchanged. -/
theorem c5_no_conflict_unchanged_witness :
    transformOperationPair (fillOperation OperationType.insert 0 ['q'] 0 "w" "" ⟨[]⟩ 0 "")
      (fillOperation OperationType.insert 5 ['r'] 0 "w" "" ⟨[]⟩ 0 "") =
      (fillOperation OperationType.insert 0 ['q'] 0 "w" "" ⟨[]⟩ 0 "",
       fillOperation OperationType.insert 5 ['r'] 0 "w" "" ⟨[]⟩ 0 "") :=
  c5_no_conflict_unchanged _ _ (Or.inl rfl)

/-- Claim C6 counterexample: construction does not validate the full §3
invariants. An Insert with `length = 5` (the claim requires `length = 0`
for success) constructs successfully, a Delete with non-empty text
constructs successfully, a Retain with non-empty text and non-zero length
constructs successfully, and a construction that passes a non-empty but
wrong checksum succeeds while `verify_integrity()` returns false. -/
theorem c6_validation_counterexample :
    (mkOperation OperationType.insert 0 ['a'] 5 "" "" ⟨[]⟩ 0 "").isSome = true ∧
    (5 : Int) ≠ 0 ∧
    (mkOperation OperationType.delete 0 ['x'] 1 "" "" ⟨[]⟩ 0 "").isSome = true ∧
    (mkOperation OperationType.retain 0 ['x'] 7 "" "" ⟨[]⟩ 0 "").isSome = true ∧
    (mkOperation OperationType.insert 0 ['a'] 0 "" "" ⟨[]⟩ 0 "bogus").all
      verifyIntegrity = false := by
  refine ⟨by decide, by decide, by decide, by decide, by decide⟩

/-- Claim C6 (amended): constructing an Operation succeeds if and only if it
is not an Insert with empty text and not a Delete with non-positive length
(the Insert's `length`, the Delete's `text` and all Retain fields are not
validated); and whenever the checksum argument is left empty — as in every
construction that does not copy an existing wire checksum — the constructor
fills it from `(kind, position, text, length)` so that `verify_integrity()`
returns true on the constructed operation. -/
theorem c6_validation_amended (t : OperationType) (p : Int) (text : List Char)
    (len : Int) (cid oid : String) (vc : VectorClock) (ts : ℚ) :
    ((mkOperation t p text len cid oid vc ts "").isSome ↔
      ¬(t = OperationType.insert ∧ text = []) ∧
        ¬(t = OperationType.delete ∧ len ≤ 0)) ∧
    (mkOperation t p text len cid oid vc ts "").all verifyIntegrity = true := by
  constructor
  · unfold mkOperation
    split_ifs with h1 h2 <;> simp_all
  · unfold mkOperation
    split_ifs <;> simp [Option.all, fillOperation, verifyIntegrity]

/-- In every reachable buffer state the pending queue is empty: no buffer
operation ever appends to `pending_operations`. -/
theorem reachable_pending_empty (b : OperationBuffer) (h : ReachableBuffer b) :
    b.pending_operations = [] := by
  induction h with
  | init c cid => rfl
  | localStep b op b' _ heq ih =>
    simp only [applyLocalOperation] at heq
    split at heq
    · exact absurd heq (by simp)
    · obtain rfl := Option.some.inj heq
      exact ih
  | remoteStep b op b' _ heq ih =>
    simp only [applyRemoteOperation, ih] at heq
    split at heq
    · exact absurd heq (by simp)
    · split at heq
      · exact absurd heq (by simp)
      · obtain rfl := Option.some.inj heq
        rfl

/-- Claim C9: in every reachable `OperationBuffer` state the
`pending_operations` list is empty, so the transform-against-pending branch
of `apply_remote_operation` is never taken and every successfully applied
remote operation is applied to the content exactly as received (and appended
to the history untransformed). -/
theorem c9_pending_always_empty (b : OperationBuffer) (h : ReachableBuffer b) :
    b.pending_operations = [] ∧
    ∀ op b', applyRemoteOperation b op = some b' →
      some b'.content = applyOperation b.content op ∧
      b'.operation_history = b.operation_history ++ [op] := by
  have hp := reachable_pending_empty b h
  refine ⟨hp, ?_⟩
  intro op b' heq
  simp only [applyRemoteOperation, hp] at heq
  split at heq
  · exact absurd heq (by simp)
  · split at heq
    next hnone => exact absurd heq (by simp)
    next c happ =>
      obtain rfl := Option.some.inj heq
      exact ⟨happ.symm, rfl⟩

/-- Claim C9 at a concrete reachable state: a fresh buffer has an empty
pending queue. -/
theorem c9_pending_always_empty_witness :
    (OperationBuffer.init "hello".toList "srv").pending_operations = [] :=
  (c9_pending_always_empty (OperationBuffer.init "hello".toList "srv")
    (ReachableBuffer.init "hello".toList "srv")).1

/-- Claim C10: `SessionState.__post_init__` unconditionally recomputes
`content_checksum` from `content`, so every state built by `from_dict` —
whatever checksum was stored, tampered or not — verifies, the
integrity-failure branch of `get_session` never fires, and a corrupted
stored checksum is silently replaced by the recomputed one. -/
theorem c10_session_checksum_recomputed (d : SessionDict) :
    verifySessionIntegrity (SessionState.fromDict d) = true ∧
    getSessionParse d = some (SessionState.fromDict d) ∧
    (SessionState.fromDict d).content_checksum = contentHash d.content := by
  refine ⟨?_, ?_, rfl⟩
  · simp [verifySessionIntegrity, SessionState.fromDict, mkSessionState]
  · simp [getSessionParse, verifySessionIntegrity, SessionState.fromDict, mkSessionState]

/-! ## Support lemmas for the diff-to-ops claim -/

/-- The common-prefix loop never counts past either text. -/
theorem commonPrefixLen_le_left : ∀ (a b : List Char), commonPrefixLen a b ≤ a.length
  | [], _ => by simp [commonPrefixLen]
  | _ :: _, [] => by simp [commonPrefixLen]
  | a :: as, b :: bs => by
    by_cases h : a = b <;> simp [commonPrefixLen, h]
    exact commonPrefixLen_le_left as bs

theorem commonPrefixLen_le_right : ∀ (a b : List Char), commonPrefixLen a b ≤ b.length
  | [], _ => by simp [commonPrefixLen]
  | _ :: _, [] => by simp [commonPrefixLen]
  | a :: as, b :: bs => by
    by_cases h : a = b <;> simp [commonPrefixLen, h]
    exact commonPrefixLen_le_right as bs

theorem take_commonPrefixLen_eq : ∀ (a b : List Char),
    a.take (commonPrefixLen a b) = b.take (commonPrefixLen a b)
  | [], _ => by simp [commonPrefixLen]
  | _ :: _, [] => by simp [commonPrefixLen]
  | a :: as, b :: bs => by
    by_cases h : a = b <;> simp [commonPrefixLen, h]
    exact take_commonPrefixLen_eq as bs

theorem suffixScan_le_budget : ∀ (a b : List Char) (k : Nat), suffixScan a b k ≤ k
  | [], _, _ => by simp [suffixScan]
  | _ :: _, [], _ => by simp [suffixScan]
  | _ :: _, _ :: _, 0 => by simp [suffixScan]
  | a :: as, b :: bs, k + 1 => by
    by_cases h : a = b <;> simp [suffixScan, h]
    exact suffixScan_le_budget as bs k

theorem take_suffixScan_eq : ∀ (a b : List Char) (k : Nat),
    a.take (suffixScan a b k) = b.take (suffixScan a b k)
  | [], _, _ => by simp [suffixScan]
  | _ :: _, [], _ => by simp [suffixScan]
  | _ :: _, _ :: _, 0 => by simp [suffixScan]
  | a :: as, b :: bs, k + 1 => by
    by_cases h : a = b <;> simp [suffixScan, h]
    exact take_suffixScan_eq as bs k

theorem drop_eq_rev_take (l : List Char) (s : Nat) :
    l.drop (l.length - s) = (l.reverse.take s).reverse := by
  have h : (l.reverse.take s).reverse = (l.reverse.reverse).drop (l.reverse.length - s) :=
    List.reverse_take
  rw [List.reverse_reverse, List.length_reverse] at h
  exact h.symm

theorem take_middle_drop (l : List Char) (p k : Nat) (h1 : p ≤ k) :
    l.take p ++ ((l.take k).drop p ++ l.drop k) = l := by
  have h3 : (l.take k).take p = l.take p := by rw [List.take_take, min_eq_left h1]
  conv_rhs => rw [← List.take_append_drop k l, ← List.take_append_drop p (l.take k)]
  rw [h3, List.append_assoc]

theorem verify_fill_empty_checksum (t : OperationType) (p : Int) (txt : List Char)
    (len : Int) (cid oid : String) (vc : VectorClock) (ts : ℚ) :
    verifyIntegrity (fillOperation t p txt len cid oid vc ts "") = true := by
  simp [verifyIntegrity, fillOperation]

theorem applyOperation_insert_fill (l txt : List Char) (p : Nat) (cid oid : String)
    (vc : VectorClock) (ts : ℚ) (hp : p ≤ l.length) :
    applyOperation l (fillOperation OperationType.insert (p : Int) txt 0 cid oid vc ts "") =
      some (l.take p ++ txt ++ l.drop p) := by
  have hc : (p : Int) ≤ (l.length : Int) := by exact_mod_cast hp
  have h1 : min (p : Int) (l.length : Int) = (p : Int) := min_eq_left hc
  simp [applyOperation, fillOperation, verifyIntegrity, h1]

theorem applyOperation_delete_fill (l : List Char) (p L : Nat) (cid oid : String)
    (vc : VectorClock) (ts : ℚ) (h : p + L ≤ l.length) :
    applyOperation l (fillOperation OperationType.delete (p : Int) [] (L : Int) cid oid vc ts "") =
      some (l.take p ++ l.drop (p + L)) := by
  have hc : (p : Int) + (L : Int) ≤ (l.length : Int) := by exact_mod_cast h
  have h1 : min (p : Int) (l.length : Int) = (p : Int) := by omega
  have h2 : min ((p : Int) + (L : Int)) (l.length : Int) = ((p + L : Nat) : Int) := by
    push_cast
    omega
  have h3 : max (p : Int) ((p + L : Nat) : Int) = ((p + L : Nat) : Int) := by
    push_cast
    omega
  have h4 : ((p : Int) + (L : Int)).toNat = p + L := by omega
  simp [applyOperation, fillOperation, verifyIntegrity, h1, h2, h3, h4]

theorem parseEdit_apply_shape (old_text new_text : List Char) (cid : String) :
    (parseEditToOperations old_text new_text cid).bind (applyOpsSeq old_text) = some new_text ∧
    (parseEditToOperations old_text new_text cid).all
      (claimShape (commonPrefixLen old_text new_text)) = true := by
  by_cases heq : old_text = new_text
  · subst heq
    simp [parseEditToOperations, applyOpsSeq, claimShape, Option.all]
  · have hpn : commonPrefixLen old_text new_text ≤ old_text.length :=
      commonPrefixLen_le_left old_text new_text
    have hpm : commonPrefixLen old_text new_text ≤ new_text.length :=
      commonPrefixLen_le_right old_text new_text
    have htake := take_commonPrefixLen_eq old_text new_text
    have hsb := suffixScan_le_budget old_text.reverse new_text.reverse
      (min old_text.length new_text.length - commonPrefixLen old_text new_text)
    have hstake := take_suffixScan_eq old_text.reverse new_text.reverse
      (min old_text.length new_text.length - commonPrefixLen old_text new_text)
    simp only [parseEditToOperations, heq, if_false, eq_self_iff_true]
    set p := commonPrefixLen old_text new_text with hpdef
    set s := suffixScan old_text.reverse new_text.reverse
      (min old_text.length new_text.length - p) with hsdef
    have hps : p + s ≤ min old_text.length new_text.length := by omega
    have hpsn : p + s ≤ old_text.length := by omega
    have hpsm : p + s ≤ new_text.length := by omega
    have hdrop : old_text.drop (old_text.length - s) = new_text.drop (new_text.length - s) := by
      rw [drop_eq_rev_take old_text s, drop_eq_rev_take new_text s, hstake]
    by_cases hom : (old_text.take (old_text.length - s)).drop p = [] <;>
      by_cases hnm : (new_text.take (new_text.length - s)).drop p = []
    · -- both middles empty: impossible, old and new would be equal
      have ho := take_middle_drop old_text p (old_text.length - s) (by omega)
      rw [hom, List.nil_append] at ho
      have hn := take_middle_drop new_text p (new_text.length - s) (by omega)
      rw [hnm, List.nil_append] at hn
      have : old_text = new_text := by rw [← ho, ← hn, htake, hdrop]
      exact absurd this heq
    · -- pure insertion
      rw [if_neg (by simp [hom]), if_neg (by simp [hom]), if_pos hnm]
      have hins : createInsertOperation (p : Int)
          ((new_text.take (new_text.length - s)).drop p) cid =
          some (fillOperation OperationType.insert (p : Int)
            ((new_text.take (new_text.length - s)).drop p) 0 cid "" ⟨[]⟩ currentTime "") := by
        simp [createInsertOperation, mkOperation, hnm]
      rw [hins]
      have hlom : ((old_text.take (old_text.length - s)).drop p).length =
          old_text.length - s - p := by
        rw [List.length_drop, List.length_take, min_eq_left (Nat.sub_le _ _)]
      have homl : ((old_text.take (old_text.length - s)).drop p).length = 0 := by
        rw [hom]; rfl
      have hpe : old_text.length - s = p := by omega
      constructor
      · simp only [Option.map_some', Option.some_bind, applyOpsSeq]
        rw [applyOperation_insert_fill old_text _ p _ _ _ _ (by omega)]
        simp only [Option.some_bind, applyOpsSeq]
        rw [show old_text.drop p = new_text.drop (new_text.length - s) from hpe ▸ hdrop,
          htake]
        have hn := take_middle_drop new_text p (new_text.length - s) (by omega)
        rw [List.append_assoc, hn]
      · simp [claimShape, fillOperation, Option.all]
    · -- pure deletion
      rw [if_neg (by simp [hnm]), if_pos hom]
      have hpos : 0 < ((old_text.take (old_text.length - s)).drop p).length :=
        List.length_pos.mpr hom
      have hlom : ((old_text.take (old_text.length - s)).drop p).length =
          old_text.length - s - p := by
        rw [List.length_drop, List.length_take, min_eq_left (Nat.sub_le _ _)]
      have hdel : createDeleteOperation (p : Int)
          ((((old_text.take (old_text.length - s)).drop p).length : Nat) : Int) cid =
          some (fillOperation OperationType.delete (p : Int) []
            ((((old_text.take (old_text.length - s)).drop p).length : Nat) : Int)
            cid "" ⟨[]⟩ currentTime "") := by
        simp [createDeleteOperation, mkOperation]
        omega
      rw [hdel]
      constructor
      · simp only [Option.map_some', Option.some_bind, applyOpsSeq]
        rw [applyOperation_delete_fill old_text p _ _ _ _ _ (by omega)]
        simp only [Option.some_bind, applyOpsSeq]
        rw [show p + ((old_text.take (old_text.length - s)).drop p).length
            = old_text.length - s from by omega]
        rw [htake, hdrop]
        have hn := take_middle_drop new_text p (new_text.length - s) (by omega)
        rw [hnm, List.nil_append] at hn
        rw [hn]
      · simp [claimShape, fillOperation, Option.all]
    · -- replacement: one delete then one insert
      rw [if_pos ⟨hom, hnm⟩]
      have hpos : 0 < ((old_text.take (old_text.length - s)).drop p).length :=
        List.length_pos.mpr hom
      have hlom : ((old_text.take (old_text.length - s)).drop p).length =
          old_text.length - s - p := by
        rw [List.length_drop, List.length_take, min_eq_left (Nat.sub_le _ _)]
      have hdel : createDeleteOperation (p : Int)
          ((((old_text.take (old_text.length - s)).drop p).length : Nat) : Int) cid =
          some (fillOperation OperationType.delete (p : Int) []
            ((((old_text.take (old_text.length - s)).drop p).length : Nat) : Int)
            cid "" ⟨[]⟩ currentTime "") := by
        simp [createDeleteOperation, mkOperation]
        omega
      have hins : createInsertOperation (p : Int)
          ((new_text.take (new_text.length - s)).drop p) cid =
          some (fillOperation OperationType.insert (p : Int)
            ((new_text.take (new_text.length - s)).drop p) 0 cid "" ⟨[]⟩ currentTime "") := by
        simp [createInsertOperation, mkOperation, hnm]
      rw [hdel, hins]
      have ht1 : (old_text.take p).length = p := by
        rw [List.length_take, min_eq_left hpn]
      constructor
      · simp only [Option.map_some', Option.some_bind, applyOpsSeq]
        rw [applyOperation_delete_fill old_text p _ _ _ _ _ (by omega)]
        simp only [Option.some_bind, applyOpsSeq]
        rw [show p + ((old_text.take (old_text.length - s)).drop p).length
            = old_text.length - s from by omega]
        rw [applyOperation_insert_fill _ _ p _ _ _ _ (by
          simp only [List.length_append, List.length_drop, ht1]
          omega)]
        simp only [Option.some_bind, applyOpsSeq]
        rw [List.take_left' ht1, List.drop_left' ht1]
        rw [htake, hdrop, List.append_assoc]
        have hn := take_middle_drop new_text p (new_text.length - s) (by omega)
        rw [hn]
      · simp [claimShape, fillOperation, Option.all]

/-- Claim C7: `parse_edit_to_operations` returns the empty list when the
texts are equal; otherwise at most one Delete followed by at most one Insert,
both positioned at the longest-common-prefix boundary; applying the returned
operations in order to the old text always yields the new text; and on
`"foo bar baz" → "foo QUUX baz"` it returns exactly Delete(position 4,
length 3) followed by Insert(position 4, "QUUX"). -/
theorem c7_parse_edit_correct (old_text new_text : List Char) (client_id : String) :
    (old_text = new_text →
      parseEditToOperations old_text new_text client_id = some []) ∧
    (parseEditToOperations old_text new_text client_id).bind
      (applyOpsSeq old_text) = some new_text ∧
    (parseEditToOperations old_text new_text client_id).all
      (claimShape (commonPrefixLen old_text new_text)) = true ∧
    parseEditToOperations "foo bar baz".toList "foo QUUX baz".toList client_id =
      some [fillOperation OperationType.delete 4 [] 3 client_id "" ⟨[]⟩ 0 "",
            fillOperation OperationType.insert 4 "QUUX".toList 0 client_id "" ⟨[]⟩ 0 ""] :=
  ⟨fun h => by simp [parseEditToOperations, h],
   (parseEdit_apply_shape old_text new_text client_id).1,
   (parseEdit_apply_shape old_text new_text client_id).2,
   rfl⟩

/-- Claim C7 at a concrete input: equal texts parse to the empty operation
list. -/
theorem c7_parse_edit_correct_witness :
    parseEditToOperations ['a'] ['a'] "u" = some [] :=
  (c7_parse_edit_correct ['a'] ['a'] "u").1 rfl

/-! ## Support lemmas for the rate-limit claim -/

theorem pruneOldRequests_length_le (cutoff : ℚ) : ∀ (l : List ℚ),
    (pruneOldRequests cutoff l).length ≤ l.length
  | [] => by simp [pruneOldRequests]
  | t :: ts => by
    by_cases h : t < cutoff <;> simp [pruneOldRequests, h]
    exact le_trans (pruneOldRequests_length_le cutoff ts) (Nat.le_succ _)

theorem windowCount_le_length (T : ℚ) (l : List ℚ) : windowCount T l ≤ l.length :=
  List.length_filter_le _ l

theorem windowCount_cons (T t : ℚ) (ts : List ℚ) :
    windowCount T (t :: ts) =
      (if T - 60 < t ∧ t ≤ T then 1 else 0) + windowCount T ts := by
  by_cases h : T - 60 < t ∧ t ≤ T <;>
    simp [windowCount, List.filter_cons, h, Nat.add_comm]

theorem windowCount_append_single (T t : ℚ) (l : List ℚ) :
    windowCount T (l ++ [t]) =
      windowCount T l + (if T - 60 < t ∧ t ≤ T then 1 else 0) := by
  by_cases h : T - 60 < t ∧ t ≤ T <;>
    simp [windowCount, List.filter_append, List.filter_cons, h]

theorem pruneOldRequests_windowCount (T now : ℚ) (hnow : now ≤ T) : ∀ (l : List ℚ),
    windowCount T (pruneOldRequests (now - 60) l) = windowCount T l
  | [] => rfl
  | t :: ts => by
    by_cases h : t < now - 60
    · have hf : ¬(T - 60 < t ∧ t ≤ T) := by
        rintro ⟨h1, _⟩
        linarith
      rw [pruneOldRequests, if_pos h, pruneOldRequests_windowCount T now hnow ts,
        windowCount_cons, if_neg hf, Nat.zero_add]
    · rw [pruneOldRequests, if_neg h]

theorem processedCountInWindow_cons (T t : ℚ) (o : HandleOutcome)
    (rest : List (ℚ × HandleOutcome)) :
    processedCountInWindow T ((t, o) :: rest) =
      (if o.processed = true ∧ (T - 60 < t ∧ t ≤ T) then 1 else 0) +
        processedCountInWindow T rest := by
  by_cases h : o.processed = true ∧ (T - 60 < t ∧ t ≤ T)
  · simp [processedCountInWindow, List.filter_cons, h.1, h.2, Nat.add_comm]
  · rw [if_neg h, Nat.zero_add]
    rcases Decidable.not_and_iff_or_not.mp h with h1 | h2
    · have hb : o.processed = false := by simpa using h1
      simp [processedCountInWindow, List.filter_cons, hb]
    · simp [processedCountInWindow, List.filter_cons, h2]

theorem processedCount_zero_of_gt (T : ℚ) : ∀ (times req : List ℚ),
    (∀ x ∈ times, T < x) →
    processedCountInWindow T (runHandleTrace req times) = 0
  | [], _, _ => rfl
  | t :: ts, req, h => by
    have ht := h t (by simp)
    have hf : ¬((handleMessageRateGate t req).2.processed = true ∧ (T - 60 < t ∧ t ≤ T)) := by
      rintro ⟨_, _, h2⟩
      linarith
    rw [runHandleTrace, processedCountInWindow_cons, if_neg hf, Nat.zero_add]
    exact processedCount_zero_of_gt T ts _ (fun x hx => h x (by simp [hx]))

theorem trace_outcomes : ∀ (times req : List ℚ) (e : ℚ × HandleOutcome),
    e ∈ runHandleTrace req times →
    e.2 = ⟨true, 0, 0, false⟩ ∨ e.2 = ⟨false, 1, 1, false⟩
  | [], _, _, h => by simp [runHandleTrace] at h
  | t :: ts, req, e, h => by
    rw [runHandleTrace] at h
    rcases List.mem_cons.mp h with h1 | h2
    · subst h1
      by_cases hc : (checkRateLimit 100 60 t req).1 <;>
        simp [handleMessageRateGate, hc]
    · exact trace_outcomes ts _ e h2

theorem rate_trace_bound (T : ℚ) : ∀ (times requests : List ℚ),
    times.Pairwise (fun a b => a ≤ b) →
    requests.length ≤ 100 →
    processedCountInWindow T (runHandleTrace requests times) + windowCount T requests ≤ 100
  | [], req, _, hlen => by
    simpa [runHandleTrace, processedCountInWindow] using
      le_trans (windowCount_le_length T req) hlen
  | t :: ts, req, hsorted, hlen => by
    obtain ⟨hall, hts⟩ := List.pairwise_cons.mp hsorted
    by_cases hT : t ≤ T
    · rw [runHandleTrace]
      by_cases hfull : 100 ≤ (pruneOldRequests (t - 60) req).length
      · have hgate : handleMessageRateGate t req =
            (pruneOldRequests (t - 60) req, ⟨false, 1, 1, false⟩) := by
          simp [handleMessageRateGate, checkRateLimit, hfull]
        rw [hgate]
        dsimp only
        rw [processedCountInWindow_cons]
        have hwc := pruneOldRequests_windowCount T t hT req
        have hplen : (pruneOldRequests (t - 60) req).length ≤ 100 :=
          le_trans (pruneOldRequests_length_le _ _) hlen
        have ih := rate_trace_bound T ts (pruneOldRequests (t - 60) req) hts hplen
        have hneg : ¬((HandleOutcome.mk false 1 1 false).processed = true ∧
            (T - 60 < t ∧ t ≤ T)) := by
          rintro ⟨hc, _⟩
          exact absurd hc (by simp)
        rw [if_neg hneg]
        omega
      · have hgate : handleMessageRateGate t req =
            (pruneOldRequests (t - 60) req ++ [t], ⟨true, 0, 0, false⟩) := by
          simp [handleMessageRateGate, checkRateLimit, hfull]
        rw [hgate]
        dsimp only
        rw [processedCountInWindow_cons]
        have hwc := pruneOldRequests_windowCount T t hT req
        have hlen' : (pruneOldRequests (t - 60) req ++ [t]).length ≤ 100 := by
          simp only [List.length_append, List.length_cons, List.length_nil]
          omega
        have ih := rate_trace_bound T ts (pruneOldRequests (t - 60) req ++ [t]) hts hlen'
        have hwapp := windowCount_append_single T t (pruneOldRequests (t - 60) req)
        by_cases hin : T - 60 < t ∧ t ≤ T
        · rw [if_pos hin] at hwapp
          rw [if_pos (show (HandleOutcome.mk true 0 0 false).processed = true ∧
            (T - 60 < t ∧ t ≤ T) from ⟨rfl, hin⟩)]
          omega
        · rw [if_neg hin] at hwapp
          rw [if_neg (show ¬((HandleOutcome.mk true 0 0 false).processed = true ∧
            (T - 60 < t ∧ t ≤ T)) from fun hc => hin hc.2)]
          omega
    · push_neg at hT
      have hz := processedCount_zero_of_gt T (t :: ts) req (fun x hx => by
        rcases List.mem_cons.mp hx with h1 | h2
        · exact h1 ▸ hT
        · exact lt_of_lt_of_le hT (hall x h2))
      rw [hz, Nat.zero_add]
      exact le_trans (windowCount_le_length T req) hlen

/-- Claim C8: for any nondecreasing sequence of call times, within any
sliding window `(T - 60, T]` at most 100 `handle_message` calls pass the
rate-limit check and are processed; and every call that fails the check
produces exactly one error reply, exactly one recorded rate-limit error, is
not processed, and does not disconnect the channel. -/
theorem c8_rate_limit_tight (times : List ℚ) (T : ℚ)
    (hsorted : times.Pairwise (fun a b => a ≤ b)) :
    processedCountInWindow T (runHandleTrace [] times) ≤ 100 ∧
    ∀ e ∈ runHandleTrace [] times, e.2.processed = false →
      e.2.errorReplies = 1 ∧ e.2.rateLimitErrors = 1 ∧ e.2.disconnected = false := by
  constructor
  · have h := rate_trace_bound T times [] hsorted (by simp)
    simpa [windowCount] using h
  · intro e he hp
    rcases trace_outcomes times [] e he with h1 | h1 <;> rw [h1] at hp ⊢
    · exact absurd hp (by simp)
    · exact ⟨rfl, rfl, rfl⟩

/-- Claim C8 at a concrete input: a single call at time 0 stays within the
budget of the window ending at 0. -/
theorem c8_rate_limit_tight_witness :
    processedCountInWindow 0 (runHandleTrace [] [0]) ≤ 100 :=
  (c8_rate_limit_tight [0] 0 (by simp)).1
